import Mathlib

/-!
Verification development for the foure-level terrain generation engine.

The definitions below are a shallow embedding of the TypeScript sources:
`src/generators/terrain-generator.ts`, `src/generators/encounter-balancer.ts`,
`src/types/terrain.ts` and `src/utils/map-compression.ts`.  JavaScript numbers
are modelled as exact rationals (`ℚ`), machine integers as `Nat`/`Int`;
`Math.floor` is `Int.floor`.  A grid is a list of rows of terrain-id strings;
the JS value `undefined` obtained from an out-of-bounds read is modelled as
the string `""`, which is never a terrain id.
-/

namespace FoureLevel

set_option maxRecDepth 200000

/-! ## Seeded stream generator (terrain-generator.ts, `seededRandom`) -/

/-- Modulus `m = 2 ** 35 - 31` of the linear-congruential generator. -/
def lcgM : Nat := 2 ^ 35 - 31

/-- Multiplier `a = 185852` of the linear-congruential generator. -/
def lcgA : Nat := 185852

/-- Initial closure state: `let s = seed % m`. -/
def lcgInit (seed : Nat) : Nat := seed % lcgM

/-- One state update: `s = (s * a) % m`.  (The update happens before the
value is returned, so the first draw already uses the updated state.) -/
def lcgNext (s : Nat) : Nat := (s * lcgA) % lcgM

/-- The n-th internal state of a generator seeded with `seed`. -/
def lcgState (seed : Nat) : Nat → Nat
  | 0 => lcgInit seed
  | n + 1 => lcgNext (lcgState seed n)

/-- The value returned by a draw from state `s`: `(s * a % m) / m`. -/
def lcgVal (s : Nat) : ℚ := (lcgNext s : ℚ) / (lcgM : ℚ)

/-- The n-th value of the stream of a generator seeded with `seed`
(`n = 0` is the first call of the returned function). -/
def lcgOut (seed : Nat) (n : Nat) : ℚ := (lcgState seed (n + 1) : ℚ) / (lcgM : ℚ)

/-! ## JS helpers -/

/-- The JS idiom `x || d` applied to an optional numeric configuration
parameter: an absent parameter and the number `0` (both falsy) give the
default `d`; any other number is kept. -/
def jsOr (v : Option ℚ) (d : ℚ) : ℚ :=
  match v with
  | none => d
  | some q => if q = 0 then d else q

/-! ## Grids -/

/-- A terrain grid: a list of rows, each row a list of terrain-id strings. -/
abbrev Grid := List (List String)

/-- `terrain.length`. -/
def gridH (g : Grid) : Nat := g.length

/-- `terrain[0].length` (0 for an empty grid). -/
def gridW (g : Grid) : Nat := (g.headD []).length

/-- Read `terrain[y][x]` for natural indices; out of bounds gives `""`
(modelling the JS `undefined`). -/
def cellN (g : Grid) (x y : Nat) : String := (g.getD y []).getD x ""

/-- Write `terrain[y][x] = v` for natural indices; out of bounds is a no-op
(such writes create array properties that in-range reads never see). -/
def setCellN (g : Grid) (x y : Nat) (v : String) : Grid :=
  g.set y ((g.getD y []).set x v)

/-- Read `terrain[y][x]` for integer indices. -/
def cellI (g : Grid) (x y : Int) : String :=
  if 0 ≤ x ∧ 0 ≤ y then cellN g x.toNat y.toNat else ""

/-- Write `terrain[y][x] = v` for integer indices; negative indices are
property writes invisible to in-range reads, modelled as no-ops. -/
def setCellI (g : Grid) (x y : Int) (v : String) : Grid :=
  if 0 ≤ x ∧ 0 ≤ y then setCellN g x.toNat y.toNat v else g

/-- Read `terrain[y][x]` when the indices are JS numbers: a non-integer
index is a plain property access yielding `undefined` (modelled `""`). -/
def cellQ (g : Grid) (x y : ℚ) : String :=
  if x.den = 1 ∧ y.den = 1 then cellI g x.num y.num else ""

/-- Write `terrain[y][x] = v` for JS-number indices; non-integer indices are
property writes invisible to element reads, modelled as no-ops. -/
def setCellQ (g : Grid) (x y : ℚ) (v : String) : Grid :=
  if x.den = 1 ∧ y.den = 1 then setCellI g x.num y.num v else g

/-- Build the `height × width` grid whose cell `(x, y)` is `f x y`. -/
def mkGrid (w h : Nat) (f : Nat → Nat → String) : Grid :=
  (List.range h).map (fun y => (List.range w).map (fun x => f x y))

/-- Row-major list of all cell coordinates `(x, y)` of a `w × h` grid
(`y` outer, `x` inner, as the nested `for` loops iterate). -/
def coordsAll (w h : Nat) : List (Nat × Nat) :=
  (List.range h).flatMap (fun y => (List.range w).map (fun x => (x, y)))

/-- Row-major list of the interior coordinates, as iterated by
`for (y = 1; y < h - 1; y++) for (x = 1; x < w - 1; x++)`. -/
def interiorCoords (w h : Nat) : List (Nat × Nat) :=
  (List.range (h - 2)).flatMap (fun j => (List.range (w - 2)).map (fun i => (i + 1, j + 1)))

/-- The list `a, a+1, ..., b-1` of loop values of `for (i = a; i < b; i++)`
for integer bounds (empty when `b ≤ a`). -/
def intRangeLt (a b : Int) : List Int :=
  (List.range (b - a).toNat).map (fun k => a + k)

/-- Loop values of `for (i = a; i < b; i++)` when the bounds are arbitrary
JS numbers: `a, a+1, ...` while `< b`, i.e. `⌈b - a⌉` iterations. -/
def ratRangeLt (a b : ℚ) : List ℚ :=
  (List.range (Int.toNat ⌈b - a⌉)).map (fun k => a + k)

/-- Loop values of `for (i = a; i <= b; i++)`. -/
def ratRangeLe (a b : ℚ) : List ℚ := ratRangeLt a (b + 1)

/-! ## Terrain catalog (types/terrain.ts) -/

/-- The gameplay fields of a `TerrainConfig` entry used by the engine. -/
structure TerrainConfig where
  blocksMovement : Bool
  blocksLineOfSight : Bool
  movementCost : ℚ
deriving DecidableEq, Repr

/-- `TERRAIN_TYPES` lookup: `TerrainUtils.getTerrain`. -/
def getTerrain (id : String) : Option TerrainConfig :=
  if id = "empty" then some ⟨false, false, 1⟩
  else if id = "wall" then some ⟨true, true, 0⟩
  else if id = "pit" then some ⟨true, false, 2⟩
  else if id = "lava" then some ⟨true, false, 0⟩
  else if id = "water" then some ⟨false, false, 2⟩
  else if id = "difficult" then some ⟨false, false, 2⟩
  else if id = "ruins" then some ⟨false, true, 3⟩
  else if id = "mushrooms" then some ⟨false, true, 2⟩
  else if id = "crystal" then some ⟨true, false, 0⟩
  else if id = "altar" then some ⟨false, false, 1⟩
  else if id = "trees" then some ⟨false, true, 2⟩
  else if id = "stalagmite" then some ⟨false, true, 2⟩
  else if id = "chasm" then some ⟨true, false, 0⟩
  else if id = "bridge" then some ⟨false, false, 1⟩
  else if id = "portal" then some ⟨false, false, 1⟩
  else if id = "rubble" then some ⟨false, true, 2⟩
  else if id = "ice" then some ⟨false, false, 2⟩
  else none

/-- `TerrainUtils.blocksMovement`: unknown ids default to `true`. -/
def blocksMovement (id : String) : Bool :=
  match getTerrain id with
  | some t => t.blocksMovement
  | none => true

/-- `TerrainUtils.blocksLineOfSight`: unknown ids default to `true`. -/
def blocksLineOfSight (id : String) : Bool :=
  match getTerrain id with
  | some t => t.blocksLineOfSight
  | none => true

/-- `TerrainUtils.getMovementCost`: unknown ids default to `0`. -/
def getMovementCost (id : String) : ℚ :=
  match getTerrain id with
  | some t => t.movementCost
  | none => 0

/-! ## Compression codec (utils/map-compression.ts) -/

/-- An RLE segment `{terrain, count}`. -/
structure RLESegment where
  terrain : String
  count : Nat
deriving DecidableEq, Repr

/-- An RLE row `{segments, y}`. -/
structure RLERow where
  segments : List RLESegment
  y : Nat
deriving DecidableEq, Repr

/-- `dimensions` record of a `CompressedMapData`. -/
structure Dimensions where
  width : Nat
  height : Nat
deriving DecidableEq, Repr

/-- The `metadata` record of a `CompressedMapData`.  We name the
`compressionRatio` field `compressionPct` (it is the percentage
`(1 - compressed/original) * 100`). -/
structure CompressedMetadata where
  theme : String
  seed : Nat
  version : String
  compressionPct : ℚ
deriving DecidableEq, Repr

/-- `CompressedMapData`. -/
structure CompressedMapData where
  dimensions : Dimensions
  rleData : List RLERow
  metadata : CompressedMetadata
deriving DecidableEq, Repr

/-- The inner loop of `compressMap`'s row scan: `cur` is `currentTerrain`,
`cnt` the running `count`, and the argument the cells not yet scanned. -/
def rleAux (cur : String) (cnt : Nat) : List String → List RLESegment
  | [] => [⟨cur, cnt⟩]
  | t :: rest => if t = cur then rleAux cur (cnt + 1) rest else ⟨cur, cnt⟩ :: rleAux t 1 rest

/-- Run-length encode one row, scanning left to right and merging equal
neighbours.  (On an empty row the JS code would read `row[0]` as `undefined`
and emit one bogus segment; rows of a well-formed grid are never empty, and
we return `[]` there.) -/
def rleRow : List String → List RLESegment
  | [] => []
  | t :: rest => rleAux t 1 rest

/-- A row contains a run of length at least 2, i.e. two consecutive equal
terrain ids. -/
def hasRun : List String → Bool
  | a :: b :: t => (a == b) || hasRun (b :: t)
  | _ => false

/-- `MapCompression.compressMap`. -/
def compressMap (terrainLayer : Grid) (seed : Nat) (theme : String) : CompressedMapData :=
  let height := terrainLayer.length
  let width := (terrainLayer.headD []).length
  let rleData := (List.range height).map (fun y => RLERow.mk (rleRow (terrainLayer.getD y [])) y)
  let originalSize : Nat := height * width
  let compressedSize : Nat := rleData.foldl (fun sum r => sum + r.segments.length) 0
  let pct : ℚ := (1 - (compressedSize : ℚ) / (originalSize : ℚ)) * 100
  ⟨⟨width, height⟩, rleData, ⟨theme, seed, "1.0.0", pct⟩⟩

/-- `MapCompression.decompressMap`.  The source destructures `width`,
`height` and `rleData` from the top level of `compressedData`, but the
`CompressedMapData` interface nests `width`/`height` under `dimensions`,
so both are the JS value `undefined`; the row loop guard `y < height` is
then always false and the function returns the empty array.  We embed that
observable behaviour. -/
def decompressMap (_ : CompressedMapData) : Grid := []

/-- Re-expansion of one RLE row (the body the decoder's row loop would run
per row): every segment repeated `count` times, in segment order. -/
def expandSegments (segs : List RLESegment) : List String :=
  segs.flatMap (fun seg => List.replicate seg.count seg.terrain)

/-- Split a character list at every occurrence of `sep`; `acc` holds the
reversed current field. -/
def splitCharsAux (sep : Char) : List Char → List Char → List (List Char)
  | [], acc => [acc.reverse]
  | c :: cs, acc =>
    if c = sep then acc.reverse :: splitCharsAux sep cs []
    else splitCharsAux sep cs (c :: acc)

/-- JS `s.split(sep)` for a one-character separator (the only kind the
codec uses); the empty string yields `[""]`, as in JS. -/
def jsSplitOn (s : String) (sep : Char) : List String :=
  (splitCharsAux sep s.data []).map (fun l => String.mk l)

/-- JS `parts.join(sep)`. -/
def jsJoin (sep : String) : List String → String
  | [] => ""
  | [a] => a
  | a :: rest => a ++ sep ++ jsJoin sep rest

/-- The decimal numerals appearing in compact strings, as read by
`parseInt(s, 10)` / `Number(s)`; non-numeral input (JS `NaN`) does not
occur in the strings considered here and is mapped to `0`. -/
def jsParseNat (s : String) : Nat :=
  if s.data ≠ [] ∧ s.data.all (fun c => 48 ≤ c.toNat ∧ c.toNat ≤ 57) then
    s.data.foldl (fun n c => n * 10 + (c.toNat - 48)) 0
  else 0

/-- `MapCompression.fromCompactString`: split on `'|'`, read the four
header fields, then parse every remaining field as a comma-separated list
of `terrain:count` segments, tagging rows by their index.  The function
performs no validation of the parsed fields against the declared
dimensions. -/
def fromCompactString (compactString : String) : CompressedMapData :=
  let parts := jsSplitOn compactString '|'
  let dimensionsStr := parts.getD 0 ""
  let seedStr := parts.getD 1 ""
  let theme := parts.getD 2 ""
  let version := parts.getD 3 ""
  let rleString := jsJoin "|" (parts.drop 4)
  let dims := (jsSplitOn dimensionsStr 'x').map jsParseNat
  let width := dims.getD 0 0
  let height := dims.getD 1 0
  let rleData := (jsSplitOn rleString '|').enum.map (fun p =>
    RLERow.mk ((jsSplitOn p.2 ',').map (fun segStr =>
      let sp := jsSplitOn segStr ':'
      RLESegment.mk (sp.getD 0 "") (jsParseNat (sp.getD 1 "")))) p.1)
  let seed := jsParseNat seedStr
  let originalSize : Nat := width * height
  let compressedSize : Nat := rleData.foldl (fun sum r => sum + r.segments.length) 0
  let pct : ℚ := (1 - (compressedSize : ℚ) / (originalSize : ℚ)) * 100
  ⟨⟨width, height⟩, rleData, ⟨theme, seed, version, pct⟩⟩

/-- Modelled from the spec: the decoder as specified in §4.8 (and as the
declared types of the source intend), reading the dimensions from
`compressedData.dimensions`: for each `y` below the declared height, find
the RLE row tagged `y` and re-expand its segments (an absent row gives an
empty row, as in the source's `if (rleRow)` guard). -/
def decompressMapIntended (c : CompressedMapData) : Grid :=
  (List.range c.dimensions.height).map (fun y =>
    match c.rleData.find? (fun r => r.y == y) with
    | some r => expandSegments r.segments
    | none => [])

/-! ## Generator configuration (terrain-generator.ts) -/

/-- The named numeric knobs read from `config.parameters`; an absent knob is
`none` (JS `undefined`). -/
structure GenParams where
  minRoomSize : Option ℚ
  maxRooms : Option ℚ
  corridorWidth : Option ℚ
  initialFill : Option ℚ
  iterations : Option ℚ
  birthLimit : Option ℚ
  deathLimit : Option ℚ
  steps : Option ℚ
  branchChance : Option ℚ
deriving DecidableEq, Repr

/-- The parameter record with every knob absent. -/
def noParams : GenParams := ⟨none, none, none, none, none, none, none, none, none⟩

/-- `GenerationConfig`. -/
structure GenerationConfig where
  width : Nat
  height : Nat
  seed : Nat
  theme : String
  algorithm : String
  parameters : GenParams
deriving DecidableEq, Repr

/-- `getThemeFeatures`. -/
def getThemeFeatures (theme : String) : List String :=
  if theme = "dungeon" then ["pit", "water", "difficult", "altar"]
  else if theme = "wilderness" then ["difficult", "trees", "water", "pit"]
  else if theme = "underground" then ["crystal", "water", "difficult", "stalagmite"]
  else if theme = "urban" then ["rubble", "water", "pit", "difficult"]
  else if theme = "mystical" then ["crystal", "portal", "altar", "mushrooms"]
  else ["difficult", "water"]

/-! ## Cellular automata algorithm (`generateCellular`) -/

/-- The eight neighbour offsets `(dx, dy)` in the order the nested
`for (dy) for (dx)` loops visit them. -/
def offsets8 : List (Int × Int) :=
  [(-1, -1), (0, -1), (1, -1), (-1, 0), (1, 0), (-1, 1), (0, 1), (1, 1)]

/-- Bounds test `nx >= 0 && nx < terrain[0].length && ny >= 0 && ny < terrain.length`. -/
def inBounds (g : Grid) (nx ny : Int) : Prop :=
  0 ≤ nx ∧ nx < (gridW g : Int) ∧ 0 ≤ ny ∧ ny < (gridH g : Int)

instance (g : Grid) (nx ny : Int) : Decidable (inBounds g nx ny) := by
  unfold inBounds; infer_instance

/-- `countNeighbors`: in-bounds 8-neighbours holding `'empty'`. -/
def countNeighbors (g : Grid) (x y : Int) : Nat :=
  (offsets8.filter (fun d =>
    decide (inBounds g (x + d.1) (y + d.2)) && (cellI g (x + d.1) (y + d.2) == "empty"))).length

/-- `countNeighborsOfType`: in-bounds 8-neighbours holding terrain `t`. -/
def countNeighborsOfType (g : Grid) (x y : Int) (t : String) : Nat :=
  (offsets8.filter (fun d =>
    decide (inBounds g (x + d.1) (y + d.2)) && (cellI g (x + d.1) (y + d.2) == t))).length

/-- The initial random fill of `generateCellular`: every cell of the
all-`'wall'` grid is visited in row-major order, drawing one stream value
per cell, and flipped to `'empty'` when the draw is below `initialFill`. -/
def cellularFill (w h : Nat) (fill : ℚ) (gs : Grid × Nat) : Grid × Nat :=
  (coordsAll w h).foldl
    (fun p xy =>
      let s := lcgNext p.2
      if lcgVal p.2 < fill then (setCellN p.1 xy.1 xy.2 "empty", s) else (p.1, s))
    gs

/-- One synchronous automaton pass: `newTerrain` starts as an all-`'wall'`
`height × width` array, only interior cells are rewritten from the previous
snapshot by the death/birth rules, and the result replaces the grid. -/
def cellularStep (w h : Nat) (birthLimit deathLimit : ℚ) (g : Grid) : Grid :=
  mkGrid w h (fun x y =>
    if 1 ≤ x ∧ x ≤ w - 2 ∧ 1 ≤ y ∧ y ≤ h - 2 then
      let nb := countNeighbors g (x : Int) (y : Int)
      if cellN g x y = "empty" then
        if (nb : ℚ) < deathLimit then "wall" else "empty"
      else
        if (nb : ℚ) > birthLimit then "empty" else "wall"
    else "wall")

/-- `addCellularFeatures`: a 10% feature pass over the interior cells,
replacing some `'empty'` cells with theme terrain. -/
def addCellularFeatures (theme : String) (gs : Grid × Nat) : Grid × Nat :=
  (interiorCoords (gridW gs.1) (gridH gs.1)).foldl
    (fun p xy =>
      if cellN p.1 xy.1 xy.2 = "empty" then
        let s1 := lcgNext p.2
        if lcgVal p.2 < 1 / 10 then
          if theme = "dungeon" then
            let s2 := lcgNext s1
            if lcgVal s1 < 3 / 10 then (setCellN p.1 xy.1 xy.2 "pit", s2)
            else
              let s3 := lcgNext s2
              if lcgVal s2 < 1 / 2 then (setCellN p.1 xy.1 xy.2 "water", s3)
              else (setCellN p.1 xy.1 xy.2 "difficult", s3)
          else if theme = "wilderness" then (setCellN p.1 xy.1 xy.2 "difficult", s1)
          else if theme = "underground" then
            let s2 := lcgNext s1
            if lcgVal s1 < 4 / 10 then (setCellN p.1 xy.1 xy.2 "crystal", s2)
            else
              let s3 := lcgNext s2
              if lcgVal s2 < 7 / 10 then (setCellN p.1 xy.1 xy.2 "water", s3)
              else (p.1, s3)
          else (p.1, s1)
        else (p.1, s1)
      else p)
    gs

/-- The effective number of automaton passes: the loop
`for (iter = 0; iter < iterations; iter++)` runs `max 0 ⌈iterations⌉`
times, where `iterations` is `config.parameters.iterations || 4`. -/
def cellularIters (ps : GenParams) : Nat := Int.toNat ⌈jsOr ps.iterations 4⌉

/-- The grid and stream state after the initial random fill of
`generateCellular` (parameter defaults applied as in the source). -/
def cellularFillOf (cfg : GenerationConfig) (s0 : Nat) : Grid × Nat :=
  cellularFill cfg.width cfg.height (jsOr cfg.parameters.initialFill (45 / 100))
    (mkGrid cfg.width cfg.height (fun _ _ => "wall"), s0)

/-- The grid of `generateCellular` after the automaton iterations, before
the feature pass. -/
def cellularPre (cfg : GenerationConfig) (s0 : Nat) : Grid :=
  (cellularStep cfg.width cfg.height (jsOr cfg.parameters.birthLimit 4)
      (jsOr cfg.parameters.deathLimit 3))^[cellularIters cfg.parameters]
    (cellularFillOf cfg s0).1

/-- `generateCellular`: random fill, automaton passes, feature pass. -/
def generateCellular (cfg : GenerationConfig) (s0 : Nat) : Grid × Nat :=
  addCellularFeatures cfg.theme (cellularPre cfg s0, (cellularFillOf cfg s0).2)

/-! ## Template algorithm (`generateTemplate`) -/

/-- The central-chamber loop of `createBaseTemplate`: the 9×7 block around
the grid centre is set to `'empty'` (bounds-checked writes). -/
def templateChamber (w h : Nat) (g : Grid) : Grid :=
  let cx : Int := (w : Int) / 2
  let cy : Int := (h : Int) / 2
  (intRangeLt (cy - 3) (cy + 4)).foldl
    (fun ga yy =>
      (intRangeLt (cx - 4) (cx + 5)).foldl
        (fun gb xx =>
          if 0 ≤ xx ∧ xx < (w : Int) ∧ 0 ≤ yy ∧ yy < (h : Int)
          then setCellI gb xx yy "empty" else gb)
        ga)
    g

/-- The first wall loop of `createBaseTemplate`: rows `0` and `h - 1` are
set to `'wall'` column by column. -/
def templateWallRows (w h : Nat) (g : Grid) : Grid :=
  (List.range w).foldl
    (fun ga xx => setCellN (setCellN ga xx 0 "wall") xx (h - 1) "wall") g

/-- The second wall loop of `createBaseTemplate`: columns `0` and `w - 1`
are set to `'wall'` row by row. -/
def templateWallCols (w h : Nat) (g : Grid) : Grid :=
  (List.range h).foldl
    (fun ga yy => setCellN (setCellN ga 0 yy "wall") (w - 1) yy "wall") g

/-- `createBaseTemplate`: an all-`'empty'` grid, the central chamber, then
the border rows and columns set to `'wall'`. -/
def createBaseTemplate (w h : Nat) : Grid :=
  templateWallCols w h (templateWallRows w h
    (templateChamber w h (mkGrid w h (fun _ _ => "empty"))))

/-- `varyTemplate`: a 20% theme-feature pass over the interior cells (one
draw to decide, one draw to pick the feature). -/
def varyTemplate (theme : String) (gs : Grid × Nat) : Grid × Nat :=
  (interiorCoords (gridW gs.1) (gridH gs.1)).foldl
    (fun p xy =>
      if cellN p.1 xy.1 xy.2 = "empty" then
        let s1 := lcgNext p.2
        if lcgVal p.2 < 2 / 10 then
          let fs := getThemeFeatures theme
          let s2 := lcgNext s1
          (setCellN p.1 xy.1 xy.2 (fs.getD (Int.toNat ⌊lcgVal s1 * (fs.length : ℚ)⌋) ""), s2)
        else (p.1, s1)
      else p)
    gs

/-- `generateTemplate`. -/
def generateTemplate (cfg : GenerationConfig) (s0 : Nat) : Grid × Nat :=
  varyTemplate cfg.theme (createBaseTemplate cfg.width cfg.height, s0)

/-! ## Drunkard's walk algorithm (`generateDrunkardWalk`) -/

/-- One step of the cursor: `switch (Math.floor(random() * 4))` over
right/left/down/up. -/
def drunkardDir (dir : Int) (x y : Int) : Int × Int :=
  if dir = 0 then (x + 1, y)
  else if dir = 1 then (x - 1, y)
  else if dir = 2 then (x, y + 1)
  else if dir = 3 then (x, y - 1)
  else (x, y)

/-- `drunkardBranch`: a secondary walk of `steps` steps with no further
branching.  State: `((grid, stream), cursor)`. -/
def drunkardBranch (steps : Nat) (st : (Grid × Nat) × Int × Int) : (Grid × Nat) × Int × Int :=
  (List.range steps).foldl
    (fun p _ =>
      let g := p.1.1
      let s1 := lcgNext p.1.2
      let c := drunkardDir ⌊lcgVal p.1.2 * 4⌋ p.2.1 p.2.2
      if 0 ≤ c.1 ∧ c.1 < (gridW g : Int) ∧ 0 ≤ c.2 ∧ c.2 < (gridH g : Int) then
        ((setCellI g c.1 c.2 "empty", s1), c)
      else ((g, s1), p.2))
    st

/-- `generateDrunkardWalk`: a cursor starting at the grid centre over an
all-`'wall'` grid, `steps` random cardinal steps (out-of-bounds moves are
skipped), each in-bounds move carving `'empty'` and possibly spawning a
branch of `10`–`59` steps with probability `branchChance`. -/
def generateDrunkardWalk (cfg : GenerationConfig) (s0 : Nat) : Grid × Nat :=
  let w := cfg.width
  let h := cfg.height
  let steps := Int.toNat ⌈jsOr cfg.parameters.steps 2000⌉
  let branchChance := jsOr cfg.parameters.branchChance (1 / 10)
  let g0 := setCellN (mkGrid w h (fun _ _ => "wall")) (w / 2) (h / 2) "empty"
  let st := (List.range steps).foldl
    (fun (p : (Grid × Nat) × Int × Int) _ =>
      let g := p.1.1
      let s1 := lcgNext p.1.2
      let c := drunkardDir ⌊lcgVal p.1.2 * 4⌋ p.2.1 p.2.2
      if 0 ≤ c.1 ∧ c.1 < (w : Int) ∧ 0 ≤ c.2 ∧ c.2 < (h : Int) then
        let g1 := setCellI g c.1 c.2 "empty"
        let s2 := lcgNext s1
        if lcgVal s1 < branchChance then
          let s3 := lcgNext s2
          drunkardBranch (Int.toNat (⌊lcgVal s2 * 50⌋ + 10)) ((g1, s3), c)
        else ((g1, s2), c)
      else ((g, s1), p.2))
    ((g0, s0), ((w : Int) / 2, (h : Int) / 2))
  st.1

/-! ## BSP algorithm (`generateBSP`) -/

/-- A `Room`; every field is a JS number. -/
structure Room where
  x : ℚ
  y : ℚ
  width : ℚ
  height : ℚ
  centerX : ℚ
  centerY : ℚ
deriving DecidableEq, Repr

/-- `generateRoomsBSP`.  The source recursion need not terminate for
pathological parameters (e.g. a non-positive `minSize`), so the embedding
carries explicit fuel; the top-level call supplies more than enough fuel
for every terminating run considered here. -/
def generateRoomsBSP (fuel : Nat) (x y w h minSize maxRooms : ℚ) (s : Nat) :
    List Room × Nat :=
  match fuel with
  | 0 => ([], s)
  | fuel + 1 =>
    if w < minSize * 2 ∨ h < minSize * 2 ∨ (0 : ℚ) ≥ maxRooms then
      let s1 := lcgNext s
      let roomWidth := max minSize (min (w - 2) ((⌊lcgVal s * (w - minSize)⌋ : ℚ) + minSize))
      let s2 := lcgNext s1
      let roomHeight := max minSize (min (h - 2) ((⌊lcgVal s1 * (h - minSize)⌋ : ℚ) + minSize))
      let s3 := lcgNext s2
      let roomX := x + (⌊lcgVal s2 * (w - roomWidth - 1)⌋ : ℚ) + 1
      let s4 := lcgNext s3
      let roomY := y + (⌊lcgVal s3 * (h - roomHeight - 1)⌋ : ℚ) + 1
      let cX := (⌊roomX + roomWidth / 2⌋ : ℚ)
      let cY := (⌊roomY + roomHeight / 2⌋ : ℚ)
      let rw := if roomX + roomWidth > x + w then (x + w) - roomX - 1 else roomWidth
      let rh := if roomY + roomHeight > y + h then (y + h) - roomY - 1 else roomHeight
      ([⟨roomX, roomY, rw, rh, cX, cY⟩], s4)
    else
      let s1 := lcgNext s
      if lcgVal s < 1 / 2 ∧ h ≥ minSize * 2 then
        let s2 := lcgNext s1
        let splitY := (⌊lcgVal s1 * (h - minSize * 2)⌋ : ℚ) + minSize + y
        let topHeight := splitY - y
        let bottomHeight := h - topHeight
        let top := generateRoomsBSP fuel x y w topHeight minSize maxRooms s2
        let bottom := generateRoomsBSP fuel x splitY w bottomHeight minSize
          (maxRooms - (top.1.length : ℚ)) top.2
        (top.1 ++ bottom.1, bottom.2)
      else if w ≥ minSize * 2 then
        let s2 := lcgNext s1
        let splitX := (⌊lcgVal s1 * (w - minSize * 2)⌋ : ℚ) + minSize + x
        let leftWidth := splitX - x
        let rightWidth := w - leftWidth
        let left := generateRoomsBSP fuel x y leftWidth h minSize maxRooms s2
        let right := generateRoomsBSP fuel splitX y rightWidth h minSize
          (maxRooms - (left.1.length : ℚ)) left.2
        (left.1 ++ right.1, right.2)
      else
        let rw := max minSize (min (w - 2) (w - 1))
        let rh := max minSize (min (h - 2) (h - 1))
        ([⟨x + 1, y + 1, rw, rh, (⌊(x + 1) + rw / 2⌋ : ℚ), (⌊(y + 1) + rh / 2⌋ : ℚ)⟩], s1)

/-- `createRoom`: `'difficult'` on the room perimeter, `'empty'` inside. -/
def createRoom (g : Grid) (room : Room) : Grid :=
  (ratRangeLt room.y (room.y + room.height)).foldl
    (fun ga yy =>
      (ratRangeLt room.x (room.x + room.width)).foldl
        (fun gb xx =>
          if xx = room.x ∨ xx = room.x + room.width - 1 ∨
              yy = room.y ∨ yy = room.y + room.height - 1 then
            setCellQ gb xx yy "difficult"
          else setCellQ gb xx yy "empty")
        ga)
    g

/-- The corridor write: `'empty'`/`'difficult'` cells become `'empty'`,
anything else is left alone. -/
def carveCell (g : Grid) (xx yy : ℚ) : Grid :=
  if 0 ≤ yy ∧ yy < (gridH g : ℚ) ∧ 0 ≤ xx ∧ xx < (gridW g : ℚ) then
    if cellQ g xx yy = "empty" ∨ cellQ g xx yy = "difficult"
    then setCellQ g xx yy "empty" else g
  else g

/-- One L-shaped corridor between consecutive rooms: a horizontal band at
the (clamped) source centre row, then a vertical band at the (clamped)
destination centre column, each `2 * ⌊corridorWidth / 2⌋ + 1` cells thick. -/
def connectPair (cw : ℚ) (g : Grid) (r1 r2 : Room) : Grid :=
  let sx := max 1 (min ((gridW g : ℚ) - 2) r1.centerX)
  let sy := max 1 (min ((gridH g : ℚ) - 2) r1.centerY)
  let ex := max 1 (min ((gridW g : ℚ) - 2) r2.centerX)
  let ey := max 1 (min ((gridH g : ℚ) - 2) r2.centerY)
  let hw : ℚ := (⌊cw / 2⌋ : ℚ)
  let g1 := (ratRangeLe (min sx ex) (max sx ex)).foldl
    (fun ga xx =>
      (ratRangeLe (sy - hw) (sy + hw)).foldl (fun gb cy => carveCell gb xx cy) ga)
    g
  (ratRangeLe (min sy ey) (max sy ey)).foldl
    (fun ga yy =>
      (ratRangeLe (ex - hw) (ex + hw)).foldl (fun gb cx => carveCell gb cx yy) ga)
    g1

/-- `connectRooms`: corridors between rooms `i` and `i + 1` in order. -/
def connectRooms (g : Grid) (rooms : List Room) (cw : ℚ) : Grid :=
  (rooms.zip rooms.tail).foldl (fun ga p => connectPair cw ga p.1 p.2) g

/-- The per-room part of `addBSPFeatures`: a 15% theme-feature pass over
the room interior, skipped entirely when the interior is thinner than 2. -/
def addRoomFeatures (theme : String) (p : Grid × Nat) (room : Room) : Grid × Nat :=
  if room.width - 2 < 2 ∨ room.height - 2 < 2 then p
  else
    (ratRangeLt (room.y + 1) (room.y + room.height - 1)).foldl
      (fun pa yy =>
        (ratRangeLt (room.x + 1) (room.x + room.width - 1)).foldl
          (fun pb xx =>
            if cellQ pb.1 xx yy = "empty" then
              let s1 := lcgNext pb.2
              if lcgVal pb.2 < 15 / 100 then
                let fs := getThemeFeatures theme
                let s2 := lcgNext s1
                (setCellQ pb.1 xx yy (fs.getD (Int.toNat ⌊lcgVal s1 * (fs.length : ℚ)⌋) ""), s2)
              else (pb.1, s1)
            else pb)
          pa)
      p

/-- `addCorridorFeatures`: a 5% pass over interior `'empty'` cells that
have at least four `'difficult'` neighbours, replacing them with a random
pick from `['pit', 'difficult', 'water']`. -/
def addCorridorFeatures (gs : Grid × Nat) : Grid × Nat :=
  (interiorCoords (gridW gs.1) (gridH gs.1)).foldl
    (fun p xy =>
      if cellN p.1 xy.1 xy.2 = "empty" then
        let s1 := lcgNext p.2
        if lcgVal p.2 < 5 / 100 then
          if 4 ≤ countNeighborsOfType p.1 (xy.1 : Int) (xy.2 : Int) "difficult" then
            let fs := ["pit", "difficult", "water"]
            let s2 := lcgNext s1
            (setCellN p.1 xy.1 xy.2 (fs.getD (Int.toNat ⌊lcgVal s1 * 3⌋) ""), s2)
          else (p.1, s1)
        else (p.1, s1)
      else p)
    gs

/-- `generateBSP`: bordered `'empty'` canvas, BSP rooms, room stamping,
L-corridors, room features, corridor features. -/
def generateBSP (cfg : GenerationConfig) (s0 : Nat) : Grid × Nat :=
  let w := cfg.width
  let h := cfg.height
  let minRoomSize := jsOr cfg.parameters.minRoomSize 4
  let maxRooms := jsOr cfg.parameters.maxRooms 8
  let corridorWidth := jsOr cfg.parameters.corridorWidth 1
  let g0 := (coordsAll w h).foldl
    (fun ga xy =>
      if xy.1 = 0 ∨ xy.1 = w - 1 ∨ xy.2 = 0 ∨ xy.2 = h - 1
      then setCellN ga xy.1 xy.2 "difficult" else ga)
    (mkGrid w h (fun _ _ => "empty"))
  let rs := generateRoomsBSP (w + h + 16) 1 1 ((w : ℚ) - 2) ((h : ℚ) - 2)
    minRoomSize maxRooms s0
  let g1 := rs.1.foldl createRoom g0
  let g2 := connectRooms g1 rs.1 corridorWidth
  let p := rs.1.foldl (addRoomFeatures cfg.theme) (g2, rs.2)
  addCorridorFeatures p

/-- `addCellularFeaturesToBSP`: the 5% theme-feature pass of the mixed
algorithm. -/
def addCellularFeaturesToBSP (theme : String) (gs : Grid × Nat) : Grid × Nat :=
  (interiorCoords (gridW gs.1) (gridH gs.1)).foldl
    (fun p xy =>
      if cellN p.1 xy.1 xy.2 = "empty" then
        let s1 := lcgNext p.2
        if lcgVal p.2 < 5 / 100 then
          let fs := getThemeFeatures theme
          let s2 := lcgNext s1
          (setCellN p.1 xy.1 xy.2 (fs.getD (Int.toNat ⌊lcgVal s1 * (fs.length : ℚ)⌋) ""), s2)
        else (p.1, s1)
      else p)
    gs

/-- `generateMixed`: BSP followed by the low-probability feature pass. -/
def generateMixed (cfg : GenerationConfig) (s0 : Nat) : Grid × Nat :=
  addCellularFeaturesToBSP cfg.theme (generateBSP cfg s0)

/-! ## The generator object -/

/-- A constructed `TerrainGenerator`: the configuration plus the state of
the seeded stream created in the constructor (`seededRandom(config.seed)`
closes over `s = seed % m`). -/
structure TerrainGenerator where
  config : GenerationConfig
  rngState : Nat
deriving DecidableEq, Repr

/-- `new TerrainGenerator(config)`. -/
def TerrainGenerator.create (cfg : GenerationConfig) : TerrainGenerator :=
  ⟨cfg, lcgInit cfg.seed⟩

/-- `generate()`: dispatch on `config.algorithm`; the `default` case of the
switch falls back to `generateBSP`. -/
def TerrainGenerator.generate (t : TerrainGenerator) : Grid :=
  let cfg := t.config
  if cfg.algorithm = "bsp" then (generateBSP cfg t.rngState).1
  else if cfg.algorithm = "cellular" then (generateCellular cfg t.rngState).1
  else if cfg.algorithm = "drunkard" then (generateDrunkardWalk cfg t.rngState).1
  else if cfg.algorithm = "template" then (generateTemplate cfg t.rngState).1
  else if cfg.algorithm = "mixed" then (generateMixed cfg t.rngState).1
  else (generateBSP cfg t.rngState).1

/-! ## Tactical position scorer (encounter-balancer.ts) -/

/-- The eight directions of `calculateFlanking`, in source order
(cardinals first, then diagonals); pairs are `(dx, dy)`. -/
def flankDirs : List (Int × Int) :=
  [(-1, 0), (1, 0), (0, -1), (0, 1), (-1, -1), (-1, 1), (1, -1), (1, 1)]

/-- The four cardinal directions used by `countApproachableDirections` and
`calculateMobility`. -/
def cardinalDirs : List (Int × Int) := [(-1, 0), (1, 0), (0, -1), (0, 1)]

/-- `hasTacticalViability`: at least two in-bounds 8-neighbours that do not
block movement. -/
def hasTacticalViability (g : Grid) (x y : Int) : Bool :=
  2 ≤ offsets8.foldl
    (fun n d =>
      if inBounds g (x + d.1) (y + d.2) ∧ blocksMovement (cellI g (x + d.1) (y + d.2)) = false
      then n + 1 else n)
    0

/-- `isSuitableForMonster`. -/
def isSuitableForMonster (g : Grid) (x y : Int) : Bool :=
  if blocksMovement (cellI g x y) then false
  else if cellI g x y = "pit" ∨ cellI g x y = "lava" ∨ cellI g x y = "water" then false
  else hasTacticalViability g x y

/-- `countApproachableDirections`: in-bounds non-blocking cardinal
neighbours. -/
def countApproachableDirections (g : Grid) (x y : Int) : Nat :=
  cardinalDirs.foldl
    (fun n d =>
      if inBounds g (x + d.1) (y + d.2) ∧ blocksMovement (cellI g (x + d.1) (y + d.2)) = false
      then n + 1 else n)
    0

/-- `calculateFlanking`: 8-neighbours that are non-blocking and have at
least three approachable cardinal directions of their own. -/
def calculateFlanking (g : Grid) (x y : Int) : Nat :=
  flankDirs.foldl
    (fun f d =>
      if inBounds g (x + d.1) (y + d.2) ∧ blocksMovement (cellI g (x + d.1) (y + d.2)) = false ∧
          3 ≤ countApproachableDirections g (x + d.1) (y + d.2)
      then f + 1 else f)
    0

/-- `calculateCover`: `+1` per in-bounds 8-neighbour blocking line of
sight, else `+0.5` per neighbour in `['ruins', 'mushrooms', 'difficult']`. -/
def calculateCover (g : Grid) (x y : Int) : ℚ :=
  offsets8.foldl
    (fun c d =>
      if inBounds g (x + d.1) (y + d.2) then
        if blocksLineOfSight (cellI g (x + d.1) (y + d.2)) then c + 1
        else if cellI g (x + d.1) (y + d.2) = "ruins" ∨ cellI g (x + d.1) (y + d.2) = "mushrooms" ∨
            cellI g (x + d.1) (y + d.2) = "difficult" then c + 1 / 2
        else c
      else c)
    0

/-- `calculateMobility`: `max(0, 3 - movementCost)` summed over in-bounds
non-blocking cardinal neighbours. -/
def calculateMobility (g : Grid) (x y : Int) : ℚ :=
  cardinalDirs.foldl
    (fun m d =>
      if inBounds g (x + d.1) (y + d.2) ∧ blocksMovement (cellI g (x + d.1) (y + d.2)) = false
      then m + max 0 (3 - getMovementCost (cellI g (x + d.1) (y + d.2))) else m)
    0

/-- `getTerrainTacticalValue`. -/
def getTerrainTacticalValue (t : String) : ℚ :=
  if t = "difficult" then 8
  else if t = "ruins" then 10
  else if t = "mushrooms" then 7
  else if t = "crystal" then 5
  else if t = "altar" then 12
  else if t = "empty" then 3
  else 1

/-- `getElevation`: the elevation system is a placeholder returning
`undefined`. -/
def getElevation (_ : Grid) (_ _ : Int) : Option ℚ := none

/-- `calculateTacticalValue`: the weighted sum of the scorer, with
`(getElevation(...) || 0) * 2` as its elevation term. -/
def calculateTacticalValue (g : Grid) (x y : Int) : ℚ :=
  getTerrainTacticalValue (cellI g x y) +
    calculateCover g x y * 10 +
    (calculateFlanking g x y : ℚ) * 5 +
    calculateMobility g x y * 3 +
    jsOr (getElevation g x y) 0 * 2

/-! ## Statement-side definitions -/

/-- The grid has exactly `h` rows and every row has length `w`. -/
def gridDims (g : Grid) (w h : Nat) : Prop :=
  g.length = h ∧ ∀ y' < h, (g.getD y' []).length = w

/-- Spec-side count (§4.7): the in-bounds 8-neighbours whose terrain does
not block movement. -/
def neighborCountSpec (g : Grid) (x y : Int) : Nat :=
  (offsets8.filter (fun d =>
    decide (inBounds g (x + d.1) (y + d.2) ∧
      blocksMovement (cellI g (x + d.1) (y + d.2)) = false))).length

/-- Spec-side count (§4.7): the non-blocking cardinal neighbours (the open
approach lanes of a cell). -/
def approachCountSpec (g : Grid) (x y : Int) : Nat :=
  (cardinalDirs.filter (fun d =>
    decide (inBounds g (x + d.1) (y + d.2) ∧
      blocksMovement (cellI g (x + d.1) (y + d.2)) = false))).length

/-- Spec-side cover (§4.7): 1 per line-of-sight-blocking 8-neighbour plus
0.5 per remaining neighbour in the partial-cover set
`['ruins', 'mushrooms', 'difficult']`. -/
def coverSpec (g : Grid) (x y : Int) : ℚ :=
  ((offsets8.filter (fun d =>
    decide (inBounds g (x + d.1) (y + d.2) ∧
      blocksLineOfSight (cellI g (x + d.1) (y + d.2)) = true))).length : ℚ) +
  (1 / 2) * ((offsets8.filter (fun d =>
    decide (inBounds g (x + d.1) (y + d.2) ∧
      ¬ blocksLineOfSight (cellI g (x + d.1) (y + d.2)) = true ∧
      (cellI g (x + d.1) (y + d.2) = "ruins" ∨ cellI g (x + d.1) (y + d.2) = "mushrooms" ∨
        cellI g (x + d.1) (y + d.2) = "difficult")))).length : ℚ)

/-- Spec-side flanking (§4.7): the 8-neighbours that are non-blocking and
have at least 3 open approach lanes of their own. -/
def flankSpec (g : Grid) (x y : Int) : Nat :=
  (flankDirs.filter (fun d =>
    decide (inBounds g (x + d.1) (y + d.2) ∧
      blocksMovement (cellI g (x + d.1) (y + d.2)) = false ∧
      3 ≤ approachCountSpec g (x + d.1) (y + d.2)))).length

/-- Spec-side mobility (§4.7): `max(0, 3 - movementCost)` summed over the
non-blocking in-bounds cardinal neighbours. -/
def mobilitySpec (g : Grid) (x y : Int) : ℚ :=
  (cardinalDirs.map (fun d =>
    if inBounds g (x + d.1) (y + d.2) ∧
        blocksMovement (cellI g (x + d.1) (y + d.2)) = false
    then max 0 (3 - getMovementCost (cellI g (x + d.1) (y + d.2))) else 0)).sum

/-! ## Helper lemmas -/

/-- Expanding the segments produced by the row-scan loop recovers the
pending run followed by the unscanned cells. -/
theorem expandSegments_rleAux (cur : String) (cnt : Nat) (rest : List String) :
    expandSegments (rleAux cur cnt rest) = List.replicate cnt cur ++ rest := by
  induction rest generalizing cur cnt with
  | nil => simp [rleAux, expandSegments]
  | cons t r ih =>
    by_cases h : t = cur
    · subst h
      rw [rleAux, if_pos rfl, ih]
      simp [List.replicate_succ', List.append_assoc]
    · rw [rleAux, if_neg h]
      simp only [expandSegments, List.flatMap_cons] at *
      rw [ih]
      simp

/-- Run-length encoding a row and re-expanding it recovers the row. -/
theorem expandSegments_rleRow (row : List String) :
    expandSegments (rleRow row) = row := by
  cases row with
  | nil => rfl
  | cons t r => rw [rleRow, expandSegments_rleAux]; simp

/-- Reading every index of a list back out of it rebuilds the list. -/
theorem map_getD_range {α : Type} (l : List α) (d : α) :
    (List.range l.length).map (fun y => l.getD y d) = l := by
  induction l with
  | nil => rfl
  | cons a t ih =>
    rw [List.length_cons, List.range_succ_eq_map, List.map_cons, List.map_map]
    have hc : ((fun y => (a :: t).getD y d) ∘ Nat.succ) = fun y => t.getD y d := by
      funext y
      simp [List.getD_cons_succ]
    rw [hc, ih]
    simp [List.getD_cons_zero]

/-- `find?` over rows tagged with their index finds exactly the row with
the searched index. -/
theorem find?_tagged (f : Nat → RLERow) (hf : ∀ i, (f i).y = i) (h y : Nat)
    (hy : y < h) :
    ((List.range h).map f).find? (fun r => r.y == y) = some (f y) := by
  induction h with
  | zero => omega
  | succ n ih =>
    rw [List.range_succ, List.map_append, List.find?_append]
    rcases Nat.lt_or_ge y n with hlt | hge
    · rw [ih hlt]; rfl
    · have hyn : y = n := by omega
      subst hyn
      have hnone : (List.map f (List.range y)).find? (fun r => r.y == y) = none := by
        rw [List.find?_eq_none]
        intro r hr
        rcases List.mem_map.mp hr with ⟨i, hi, rfl⟩
        have : i < y := List.mem_range.mp hi
        simp [hf i]
        omega
      rw [hnone]
      simp [hf y]

/-- A counting `foldl` accumulates the number of list elements satisfying
the predicate. -/
theorem foldl_count {α : Type} (p : α → Prop) [DecidablePred p] (l : List α) (c : Nat) :
    l.foldl (fun n a => if p a then n + 1 else n) c = c + (l.filter (fun a => decide (p a))).length := by
  induction l generalizing c with
  | nil => simp
  | cons a t ih =>
    by_cases h : p a
    · simp [List.filter_cons, h, ih]
      omega
    · simp [List.filter_cons, h, ih]

/-- A summing `foldl` accumulates the sum of the images of the elements. -/
theorem foldl_add_map {α : Type} (f : α → Nat) (l : List α) (c : Nat) :
    l.foldl (fun n a => n + f a) c = c + (l.map f).sum := by
  induction l generalizing c with
  | nil => simp
  | cons a t ih => simp [ih]; omega

/-! ## C4: the seeded stream generator -/

/-- C4: the seeded stream generator is the linear-congruential recurrence
with `A = 185852` and `M = 2^35 - 31`: the state starts at `seed % M`,
each draw updates the state to `(s * A) % M`, the n-th value returned is
the updated state divided by `M`, and it lies in `[0, 1)`.  (The stream is
a pure function of the seed, so equal seeds give element-wise identical
sequences by definition.) -/
theorem C4_seeded_stream_is_lcg (seed n : Nat) :
    lcgState seed 0 = seed % (2 ^ 35 - 31) ∧
    lcgState seed (n + 1) = (lcgState seed n * 185852) % (2 ^ 35 - 31) ∧
    lcgOut seed n = (lcgState seed (n + 1) : ℚ) / ((2 ^ 35 - 31 : ℚ)) ∧
    0 ≤ lcgOut seed n ∧ lcgOut seed n < 1 := by
  refine ⟨rfl, rfl, by norm_num [lcgOut, lcgM], ?_, ?_⟩
  · unfold lcgOut
    positivity
  · unfold lcgOut
    rw [div_lt_one (by norm_num [lcgM])]
    have hlt : lcgState seed (n + 1) < lcgM := by
      show lcgNext (lcgState seed n) < lcgM
      exact Nat.mod_lt _ (by norm_num [lcgM])
    exact_mod_cast hlt

/-! ## C1: the compression round trip -/

/-- C1 (code bug): the decoder returns the empty grid on the compressed
form of `[["wall"]]` instead of reproducing the grid — `decompressMap`
destructures `width`/`height` from the top level of `CompressedMapData`
although they live under `dimensions`, so its row loop runs zero times. -/
theorem C1_decompress_compress_collapses :
    decompressMap (compressMap [["wall"]] 0 "dungeon") = [] ∧
    decompressMap (compressMap [["wall"]] 0 "dungeon") ≠ [["wall"]] :=
  ⟨rfl, by decide⟩

/-- The round-trip law the spec states holds for the intended decoder
(the one reading `compressedData.dimensions`): decompressing the
compression of any grid reproduces it cell for cell. -/
theorem decompressMapIntended_compressMap (g : Grid) (seed : Nat) (theme : String) :
    decompressMapIntended (compressMap g seed theme) = g := by
  unfold decompressMapIntended compressMap
  simp only
  have hfind : ∀ y < g.length,
      (((List.range g.length).map
        (fun y => RLERow.mk (rleRow (g.getD y [])) y)).find? (fun r => r.y == y)) =
        some (RLERow.mk (rleRow (g.getD y [])) y) := by
    intro y hy
    exact find?_tagged (fun y => RLERow.mk (rleRow (g.getD y [])) y) (fun _ => rfl) _ _ hy
  calc (List.range g.length).map (fun y =>
          match (((List.range g.length).map
            (fun y => RLERow.mk (rleRow (g.getD y [])) y)).find? (fun r => r.y == y)) with
          | some r => expandSegments r.segments
          | none => [])
      = (List.range g.length).map (fun y => g.getD y []) := by
        apply List.map_congr_left
        intro y hy
        rw [hfind y (List.mem_range.mp hy)]
        exact expandSegments_rleRow _
    _ = g := map_getD_range g []

/-! ## C2: parsing malformed compact strings -/

/-- C2 (counterexample): `fromCompactString` does not reject a compact
string whose first row's segment counts sum to 5 while the declared width
is 3 — it returns a normal `CompressedMapData` carrying the mismatched
counts. -/
theorem C2_counterexample_accepts_bad_width :
    fromCompactString "3x2|1|dungeon|1.0.0|wall:5|empty:2,wall:1" =
      ⟨⟨3, 2⟩, [⟨[⟨"wall", 5⟩], 0⟩, ⟨[⟨"empty", 2⟩, ⟨"wall", 1⟩], 1⟩],
        ⟨"dungeon", 1, "1.0.0", 50⟩⟩ ∧
    (⟨[⟨"wall", 5⟩], 0⟩ : RLERow).segments.foldl (fun n s => n + s.count) 0 = 5 := by
  constructor
  · with_unfolding_all decide
  · decide

/-- C2 (amended): `fromCompactString` performs no validation at all: for
every input the parsed `rleData` has exactly one row per `'|'`-field after
the header, regardless of the declared height, and malformed strings (a
row summing to 5 against width 3; one row against height 2) are parsed
into ordinary values with the mismatch carried unchanged. -/
theorem C2_amended_parses_unconditionally :
    (∀ s : String, (fromCompactString s).rleData.length =
      (jsSplitOn (jsJoin "|" ((jsSplitOn s '|').drop 4)) '|').length) ∧
    fromCompactString "3x2|1|dungeon|1.0.0|wall:5|empty:2,wall:1" =
      ⟨⟨3, 2⟩, [⟨[⟨"wall", 5⟩], 0⟩, ⟨[⟨"empty", 2⟩, ⟨"wall", 1⟩], 1⟩],
        ⟨"dungeon", 1, "1.0.0", 50⟩⟩ ∧
    fromCompactString "3x2|1|dungeon|1.0.0|wall:3" =
      ⟨⟨3, 2⟩, [⟨[⟨"wall", 3⟩], 0⟩], ⟨"dungeon", 1, "1.0.0", 250 / 3⟩⟩ := by
  refine ⟨?_, by with_unfolding_all decide, by with_unfolding_all decide⟩
  intro s
  simp [fromCompactString]

/-! ## C9: compression of grids with runs -/

/-- The row-scan loop emits at most one segment more than the number of
unscanned cells. -/
theorem rleAux_length_le (cur : String) (cnt : Nat) (rest : List String) :
    (rleAux cur cnt rest).length ≤ 1 + rest.length := by
  induction rest generalizing cur cnt with
  | nil => simp [rleAux]
  | cons t r ih =>
    rw [rleAux]
    by_cases h : t = cur
    · rw [if_pos h]
      have := ih cur (cnt + 1)
      simp only [List.length_cons]
      omega
    · rw [if_neg h]
      have := ih t 1
      simp only [List.length_cons]
      omega

/-- When the remaining row (current run included) still contains two
consecutive equal cells, the scan saves at least one segment. -/
theorem rleAux_length_lt (cur : String) (cnt : Nat) (rest : List String)
    (h : hasRun (cur :: rest) = true) :
    (rleAux cur cnt rest).length ≤ rest.length := by
  induction rest generalizing cur cnt with
  | nil => simp [hasRun] at h
  | cons t r ih =>
    rw [rleAux]
    by_cases he : t = cur
    · rw [if_pos he]
      have := rleAux_length_le cur (cnt + 1) r
      simp only [List.length_cons]
      omega
    · rw [if_neg he]
      have h2 : hasRun (t :: r) = true := by
        rw [hasRun, Bool.or_eq_true] at h
        rcases h with h | h
        · exact absurd (beq_iff_eq.mp h).symm he
        · exact h
      have := ih t 1 h2
      simp only [List.length_cons]
      omega

/-- Run-length encoding never produces more segments than cells. -/
theorem rleRow_length_le (row : List String) :
    (rleRow row).length ≤ row.length := by
  cases row with
  | nil => simp [rleRow]
  | cons a t =>
    rw [rleRow]
    have := rleAux_length_le a 1 t
    simp only [List.length_cons]
    omega

/-- Run-length encoding a row containing a run of length ≥ 2 produces
strictly fewer segments than cells. -/
theorem rleRow_length_lt (row : List String) (h : hasRun row = true) :
    (rleRow row).length < row.length := by
  cases row with
  | nil => simp [hasRun] at h
  | cons a t =>
    rw [rleRow]
    have := rleAux_length_lt a 1 t h
    simp only [List.length_cons]
    omega

/-- A pointwise-bounded sum with one strict term is strictly below the
uniform bound times the length. -/
theorem map_sum_lt_of_exists {α : Type} (l : List α) (f : α → Nat) (w : Nat)
    (hle : ∀ a ∈ l, f a ≤ w) (hlt : ∃ a ∈ l, f a < w) :
    (l.map f).sum < l.length * w := by
  induction l with
  | nil => simp at hlt
  | cons a t ih =>
    have ht_le : (t.map f).sum ≤ t.length * w := by
      have := List.sum_le_card_nsmul (t.map f) w (by
        intro x hx
        rcases List.mem_map.mp hx with ⟨b, hb, rfl⟩
        exact hle b (List.mem_cons_of_mem a hb))
      simpa [smul_eq_mul] using this
    rcases hlt with ⟨b, hb, hbw⟩
    rcases List.mem_cons.mp hb with rfl | hbt
    · simp only [List.map_cons, List.sum_cons, List.length_cons, Nat.succ_mul]
      omega
    · have ha := hle a (List.mem_cons_self a t)
      have := ih (fun x hx => hle x (List.mem_cons_of_mem a hx)) ⟨b, hbt, hbw⟩
      simp only [List.map_cons, List.sum_cons, List.length_cons, Nat.succ_mul]
      omega

/-- The `compressionRatio` computed by `compressMap`, written via the
per-row segment counts. -/
theorem compressMap_pct (g : Grid) (seed : Nat) (theme : String) :
    (compressMap g seed theme).metadata.compressionPct =
      (1 - ((g.map (fun row => (rleRow row).length)).sum : ℚ) /
        ((g.length * gridW g : Nat) : ℚ)) * 100 := by
  unfold compressMap
  simp only
  rw [foldl_add_map]
  have hmap : (List.map (fun y => RLERow.mk (rleRow (g.getD y [])) y) (List.range g.length)).map
      (fun r => r.segments.length) = g.map (fun row => (rleRow row).length) := by
    rw [List.map_map]
    have hc : ((fun (r : RLERow) => r.segments.length) ∘
        (fun y => RLERow.mk (rleRow (g.getD y [])) y)) =
        (fun row => (rleRow row).length) ∘ (fun y => g.getD y []) := rfl
    rw [hc, ← List.map_map, map_getD_range]
  rw [hmap]
  norm_num [gridW]

/-- C9: for a rectangular grid with at least one row containing a run of
length ≥ 2, the `compressionRatio` computed by `compressMap`, namely
`(1 - totalSegments / (width * height)) * 100`, is strictly positive. -/
theorem C9_ratio_positive_with_run (g : Grid) (seed : Nat) (theme : String)
    (hrect : ∀ r ∈ g, r.length = gridW g)
    (hrun : ∃ r ∈ g, hasRun r = true) :
    0 < (compressMap g seed theme).metadata.compressionPct := by
  obtain ⟨r0, hr0, hrun0⟩ := hrun
  have hr0_len : 2 ≤ r0.length := by
    match r0, hrun0 with
    | a :: b :: t, _ => simp only [List.length_cons]; omega
  have hw2 : 2 ≤ gridW g := by
    have := hrect r0 hr0
    omega
  have hg : g ≠ [] := by
    rintro rfl
    simp at hr0
  have hh : 0 < g.length := List.length_pos.mpr hg
  have hcs : (g.map (fun row => (rleRow row).length)).sum < g.length * gridW g := by
    apply map_sum_lt_of_exists
    · intro row hrow
      have := rleRow_length_le row
      have := hrect row hrow
      omega
    · refine ⟨r0, hr0, ?_⟩
      have := rleRow_length_lt r0 hrun0
      have := hrect r0 hr0
      omega
  rw [compressMap_pct]
  have hos : (0 : ℚ) < ((g.length * gridW g : Nat) : ℚ) := by
    have : 0 < g.length * gridW g := Nat.mul_pos hh (by omega)
    exact_mod_cast this
  have hdiv : ((g.map (fun row => (rleRow row).length)).sum : ℚ) /
      ((g.length * gridW g : Nat) : ℚ) < 1 := by
    rw [div_lt_one hos]
    exact_mod_cast hcs
  have h1 : (0 : ℚ) < 1 - ((g.map (fun row => (rleRow row).length)).sum : ℚ) /
      ((g.length * gridW g : Nat) : ℚ) := by linarith
  have := mul_pos h1 (show (0 : ℚ) < 100 by norm_num)
  linarith

/-- C9 witness: the 1×2 grid `[["a", "a"]]` satisfies the hypotheses and
compresses with a strictly positive ratio. -/
theorem C9_ratio_positive_with_run_witness :
    (∀ r ∈ ([["a", "a"]] : Grid), r.length = gridW [["a", "a"]]) ∧
    (∃ r ∈ ([["a", "a"]] : Grid), hasRun r = true) ∧
    0 < (compressMap [["a", "a"]] 0 "dungeon").metadata.compressionPct :=
  ⟨by decide, by decide,
    C9_ratio_positive_with_run [["a", "a"]] 0 "dungeon" (by decide) (by decide)⟩

/-! ## C3: determinism of generation -/

/-- C3: generation is deterministic — two `TerrainGenerator`s constructed
from the same configuration (each owning a stream freshly seeded with
`config.seed`) return cell-for-cell equal grids from `generate()`.  In the
embedding a constructed generator is a pure value of its configuration, so
the two runs coincide definitionally. -/
theorem C3_generation_deterministic (cfg : GenerationConfig) (t1 t2 : TerrainGenerator)
    (h1 : t1 = TerrainGenerator.create cfg) (h2 : t2 = TerrainGenerator.create cfg) :
    t1.generate = t2.generate := by
  subst h1
  subst h2
  rfl

/-- C3 witness: two independently constructed generators for a concrete
4×4 BSP configuration agree. -/
theorem C3_generation_deterministic_witness :
    (TerrainGenerator.create ⟨4, 4, 7, "dungeon", "bsp", noParams⟩).generate =
      (TerrainGenerator.create ⟨4, 4, 7, "dungeon", "bsp", noParams⟩).generate :=
  C3_generation_deterministic ⟨4, 4, 7, "dungeon", "bsp", noParams⟩ _ _ rfl rfl

/-! ## C7: the automaton with `iterations: 0` -/

/-- C7 (counterexample): setting the parameter `iterations` to `0` does
not reproduce the random initial fill — `0` is falsy, so
`parameters.iterations || 4` yields the default 4 and four update passes
run; on a 3×3 cellular configuration with seed 1 the pre-feature grid
differs from the initial fill. -/
theorem C7_counterexample_zero_iterations_runs_default :
    cellularIters (⟨none, none, none, none, some 0, none, none, none, none⟩ : GenParams) = 4 ∧
    cellularPre ⟨3, 3, 1, "dungeon", "cellular",
        ⟨none, none, none, none, some 0, none, none, none, none⟩⟩ (lcgInit 1) ≠
      (cellularFillOf ⟨3, 3, 1, "dungeon", "cellular",
        ⟨none, none, none, none, some 0, none, none, none, none⟩⟩ (lcgInit 1)).1 := by
  constructor
  · with_unfolding_all decide
  · with_unfolding_all decide

/-- C7 (amended): the parameter value `0` is replaced by the default 4 by
the `||` idiom, so it runs four passes; the update loop itself applied
zero times is the identity, so whenever the effective iteration count is 0
(e.g. a negative `iterations` parameter) the pre-feature grid equals the
random initial fill exactly. -/
theorem C7_amended_zero_passes_identity (cfg : GenerationConfig) :
    jsOr (some 0) 4 = 4 ∧
    (cellularIters cfg.parameters = 0 →
      ∀ s0, cellularPre cfg s0 = (cellularFillOf cfg s0).1) := by
  refine ⟨by simp [jsOr], fun h s0 => ?_⟩
  unfold cellularPre
  rw [h]
  rfl

/-- C7 witness: with `iterations := -1` the effective pass count is 0 and
the pre-feature grid is exactly the initial fill. -/
theorem C7_amended_zero_passes_identity_witness :
    cellularIters (⟨none, none, none, none, some (-1), none, none, none, none⟩ : GenParams) = 0 ∧
    cellularPre ⟨3, 3, 1, "dungeon", "cellular",
        ⟨none, none, none, none, some (-1), none, none, none, none⟩⟩ (lcgInit 1) =
      (cellularFillOf ⟨3, 3, 1, "dungeon", "cellular",
        ⟨none, none, none, none, some (-1), none, none, none, none⟩⟩ (lcgInit 1)).1 :=
  ⟨by with_unfolding_all decide,
    (C7_amended_zero_passes_identity ⟨3, 3, 1, "dungeon", "cellular",
        ⟨none, none, none, none, some (-1), none, none, none, none⟩⟩).2
      (by with_unfolding_all decide) (lcgInit 1)⟩

/-! ## C8: unknown algorithm names -/

/-- C8 (counterexample): constructing a generator with the unknown
algorithm name `"voronoi"` and invoking generation does not fail — it
returns exactly the grid of the `"bsp"` algorithm for the same
configuration (the `default` case of the switch). -/
theorem C8_counterexample_silent_fallback :
    (TerrainGenerator.create ⟨4, 4, 7, "dungeon", "voronoi", noParams⟩).generate =
      (TerrainGenerator.create ⟨4, 4, 7, "dungeon", "bsp", noParams⟩).generate := rfl

/-- C8 (amended): an unknown algorithm name is not rejected; `generate()`
silently falls back to the BSP algorithm, producing the same grid as the
configuration with algorithm `"bsp"`.  No configuration error exists in
the code. -/
theorem C8_amended_unknown_algorithm_falls_back (cfg : GenerationConfig)
    (h : cfg.algorithm ∉ ["bsp", "cellular", "drunkard", "template", "mixed"]) :
    (TerrainGenerator.create cfg).generate =
      (TerrainGenerator.create
        ⟨cfg.width, cfg.height, cfg.seed, cfg.theme, "bsp", cfg.parameters⟩).generate := by
  obtain ⟨w, ht, seed, theme, alg, ps⟩ := cfg
  simp only [List.mem_cons, List.not_mem_nil, or_false, not_or] at h
  obtain ⟨h1, h2, h3, h4, h5⟩ := h
  show (TerrainGenerator.generate ⟨⟨w, ht, seed, theme, alg, ps⟩, lcgInit seed⟩) = _
  unfold TerrainGenerator.generate
  simp only [if_neg h1, if_neg h2, if_neg h3, if_neg h4, if_neg h5]
  rfl

/-- C8 witness: the concrete unknown name `"voronoi"` on a 4×4
configuration falls back to the BSP grid. -/
theorem C8_amended_unknown_algorithm_falls_back_witness :
    ("voronoi" : String) ∉ ["bsp", "cellular", "drunkard", "template", "mixed"] ∧
    (TerrainGenerator.create ⟨4, 4, 7, "dungeon", "voronoi", noParams⟩).generate =
      (TerrainGenerator.create ⟨4, 4, 7, "dungeon", "bsp", noParams⟩).generate :=
  ⟨by decide,
    C8_amended_unknown_algorithm_falls_back ⟨4, 4, 7, "dungeon", "voronoi", noParams⟩
      (by decide)⟩

/-! ## Grid cell lemmas -/

/-- Writing a cell never changes the number of rows. -/
theorem length_setCellN (g : Grid) (x y : Nat) (v : String) :
    (setCellN g x y v).length = g.length := by
  simp [setCellN]

/-- Writing a cell never changes any row length. -/
theorem rowLen_setCellN (g : Grid) (x y y' : Nat) (v : String) :
    ((setCellN g x y v).getD y' []).length = (g.getD y' []).length := by
  unfold setCellN
  rcases eq_or_ne y y' with rfl | hne
  · by_cases hl : y < g.length
    · simp [List.getD_eq_getElem?_getD, List.getElem?_set_self hl,
        List.getElem?_eq_getElem hl]
    · rw [List.set_eq_of_length_le (by omega)]
  · simp [List.getD_eq_getElem?_getD, List.getElem?_set_ne hne]

/-- Reading back an in-bounds write. -/
theorem cellN_setCellN_self (g : Grid) (x y : Nat) (v : String)
    (hx : x < (g.getD y []).length) (hy : y < g.length) :
    cellN (setCellN g x y v) x y = v := by
  unfold cellN setCellN
  have h1 : List.getD (List.set g y ((g.getD y []).set x v)) y [] =
      (g.getD y []).set x v := by
    rw [List.getD_eq_getElem?_getD, List.getElem?_set_self hy, Option.getD_some]
  rw [h1, List.getD_eq_getElem?_getD, List.getElem?_set_self hx, Option.getD_some]

/-- A write at a different cell is invisible. -/
theorem cellN_setCellN_ne (g : Grid) (x y : Nat) (v : String) (x' y' : Nat)
    (h : x' ≠ x ∨ y' ≠ y) :
    cellN (setCellN g x y v) x' y' = cellN g x' y' := by
  unfold cellN setCellN
  rcases eq_or_ne y' y with rfl | hne
  · have hx : x' ≠ x := by tauto
    by_cases hl : y' < g.length
    · simp [List.getD_eq_getElem?_getD, List.getElem?_set_self hl,
        List.getElem?_eq_getElem hl, List.getElem?_set_ne (Ne.symm hx)]
    · rw [List.set_eq_of_length_le (by omega)]
  · simp [List.getD_eq_getElem?_getD, List.getElem?_set_ne (Ne.symm hne)]

/-- A cell of a grid built by `mkGrid`. -/
theorem cellN_mkGrid (w h : Nat) (f : Nat → Nat → String) (x y : Nat)
    (hx : x < w) (hy : y < h) :
    cellN (mkGrid w h f) x y = f x y := by
  unfold cellN mkGrid
  simp [List.getD_eq_getElem?_getD, List.getElem?_map, List.getElem?_range, hx, hy]

/-- The dimensions of a grid built by `mkGrid`. -/
theorem mkGrid_dims (w h : Nat) (f : Nat → Nat → String) :
    gridDims (mkGrid w h f) w h := by
  constructor
  · simp [mkGrid]
  · intro y' hy'
    simp [mkGrid, List.getD_eq_getElem?_getD, List.getElem?_map, List.getElem?_range, hy']

/-- A fold whose steps never touch cell `(x, y)` leaves it unchanged. -/
theorem foldl_cellN_preserve {β : Type} (step : Grid → β → Grid) (l : List β)
    (g : Grid) (x y : Nat)
    (h : ∀ gb b, b ∈ l → cellN (step gb b) x y = cellN gb x y) :
    cellN (l.foldl step g) x y = cellN g x y := by
  induction l generalizing g with
  | nil => rfl
  | cons a t ih =>
    rw [List.foldl_cons, ih _ (fun gb b hb => h gb b (List.mem_cons_of_mem a hb)),
      h g a (List.mem_cons_self a t)]

/-- The pair-state version of `foldl_cellN_preserve` for loops threading
the rng state. -/
theorem foldl_cellN_preserve_pair {σ β : Type} (step : Grid × σ → β → Grid × σ)
    (l : List β) (p : Grid × σ) (x y : Nat)
    (h : ∀ q b, b ∈ l → cellN (step q b).1 x y = cellN q.1 x y) :
    cellN (l.foldl step p).1 x y = cellN p.1 x y := by
  induction l generalizing p with
  | nil => rfl
  | cons a t ih =>
    rw [List.foldl_cons, ih _ (fun q b hb => h q b (List.mem_cons_of_mem a hb)),
      h p a (List.mem_cons_self a t)]

/-- A fold whose every step preserves the row count and all row lengths
preserves them globally. -/
theorem foldl_dims_preserve {β : Type} (step : Grid → β → Grid) (l : List β)
    (g : Grid)
    (hstep : ∀ gb b, (step gb b).length = gb.length ∧
      ∀ y', ((step gb b).getD y' []).length = (gb.getD y' []).length) :
    (l.foldl step g).length = g.length ∧
      ∀ y', ((l.foldl step g).getD y' []).length = (g.getD y' []).length := by
  induction l generalizing g with
  | nil => exact ⟨rfl, fun _ => rfl⟩
  | cons a t ih =>
    rw [List.foldl_cons]
    obtain ⟨h1, h2⟩ := ih (step g a)
    obtain ⟨hs1, hs2⟩ := hstep g a
    exact ⟨h1.trans hs1, fun y' => (h2 y').trans (hs2 y')⟩

/-- `setCellI` preserves row count and row lengths. -/
theorem setCellI_dims (g : Grid) (x y : Int) (v : String) :
    (setCellI g x y v).length = g.length ∧
      ∀ y', ((setCellI g x y v).getD y' []).length = (g.getD y' []).length := by
  unfold setCellI
  by_cases h : 0 ≤ x ∧ 0 ≤ y
  · simp only [if_pos h]
    exact ⟨length_setCellN .., fun y' => rowLen_setCellN ..⟩
  · simp [h]

/-- Members of `interiorCoords` lie strictly inside the `w × h` frame. -/
theorem mem_interiorCoords (w h : Nat) (b : Nat × Nat) (hb : b ∈ interiorCoords w h) :
    1 ≤ b.1 ∧ b.1 + 2 ≤ w ∧ 1 ≤ b.2 ∧ b.2 + 2 ≤ h := by
  unfold interiorCoords at hb
  rcases List.mem_flatMap.mp hb with ⟨j, hj, hmem⟩
  rcases List.mem_map.mp hmem with ⟨i, hi, rfl⟩
  have := List.mem_range.mp hj
  have := List.mem_range.mp hi
  simp only
  omega

/-! ## C10: automaton passes force `'wall'` edges -/

/-- One automaton pass leaves `'wall'` at every edge cell: the new grid is
rebuilt from an all-`'wall'` array and only interior cells are rewritten. -/
theorem cellularStep_edge (w h : Nat) (bl dl : ℚ) (g : Grid) (x y : Nat)
    (hx : x < w) (hy : y < h)
    (hedge : x = 0 ∨ x = w - 1 ∨ y = 0 ∨ y = h - 1) :
    cellN (cellularStep w h bl dl g) x y = "wall" := by
  unfold cellularStep
  rw [cellN_mkGrid _ _ _ _ _ hx hy, if_neg (by omega)]

/-- C10: after at least one cellular-automaton update pass, every edge
cell of the grid holds `'wall'`, regardless of the seed and of the initial
random fill: each pass rebuilds the grid from an all-`'wall'` array and
rewrites only interior cells. -/
theorem C10_cellular_edges_wall (cfg : GenerationConfig) (s0 : Nat) (x y : Nat)
    (hiter : 1 ≤ cellularIters cfg.parameters)
    (hx : x < cfg.width) (hy : y < cfg.height)
    (hedge : x = 0 ∨ x = cfg.width - 1 ∨ y = 0 ∨ y = cfg.height - 1) :
    cellN (cellularPre cfg s0) x y = "wall" := by
  unfold cellularPre
  have hk : cellularIters cfg.parameters = (cellularIters cfg.parameters - 1) + 1 := by
    omega
  rw [hk, Function.iterate_succ_apply']
  exact cellularStep_edge _ _ _ _ _ x y hx hy hedge

/-- C10 witness: the corner of a 3×3 cellular run with default parameters
(4 passes) is `'wall'`. -/
theorem C10_cellular_edges_wall_witness :
    1 ≤ cellularIters noParams ∧
    cellN (cellularPre ⟨3, 3, 1, "dungeon", "cellular", noParams⟩ (lcgInit 1)) 0 0 = "wall" :=
  ⟨by with_unfolding_all decide,
    C10_cellular_edges_wall ⟨3, 3, 1, "dungeon", "cellular", noParams⟩ (lcgInit 1) 0 0
      (by with_unfolding_all decide) (by decide) (by decide) (by decide)⟩

/-! ## C5: border terrain of the Template and Partition layouts -/

/-- `gridW` reads the length of row 0. -/
theorem gridW_getD (g : Grid) : gridW g = (g.getD 0 []).length := by
  cases g <;> rfl

/-- The chamber loop preserves the grid dimensions. -/
theorem templateChamber_dims (w h : Nat) (g : Grid) :
    (templateChamber w h g).length = g.length ∧
      ∀ y', ((templateChamber w h g).getD y' []).length = (g.getD y' []).length := by
  unfold templateChamber
  apply foldl_dims_preserve
  intro gb yy
  apply foldl_dims_preserve
  intro gc xx
  by_cases hc : 0 ≤ xx ∧ xx < (w : Int) ∧ 0 ≤ yy ∧ yy < (h : Int)
  · simp only [if_pos hc]
    exact setCellI_dims ..
  · simp [hc]

/-- The wall-row loop preserves the grid dimensions. -/
theorem templateWallRows_dims (w h : Nat) (g : Grid) :
    (templateWallRows w h g).length = g.length ∧
      ∀ y', ((templateWallRows w h g).getD y' []).length = (g.getD y' []).length := by
  unfold templateWallRows
  apply foldl_dims_preserve
  intro gb xx
  constructor
  · rw [length_setCellN, length_setCellN]
  · intro y'
    rw [rowLen_setCellN, rowLen_setCellN]

/-- After the wall-row loop, every cell of rows `0` and `h - 1` is
`'wall'`. -/
theorem templateWallRowsAux_cell (w h : Nat) (l : List Nat) (g : Grid) (x y : Nat)
    (hmem : x ∈ l) (hxw : x < w) (hy : y = 0 ∨ y = h - 1) (hh : 0 < h)
    (hdims : gridDims g w h) :
    cellN (l.foldl (fun ga xx => setCellN (setCellN ga xx 0 "wall") xx (h - 1) "wall") g)
      x y = "wall" := by
  induction l generalizing g with
  | nil => simp at hmem
  | cons a t ih =>
    rw [List.foldl_cons]
    have hdims' : gridDims (setCellN (setCellN g a 0 "wall") a (h - 1) "wall") w h := by
      refine ⟨?_, fun y' hy' => ?_⟩
      · rw [length_setCellN, length_setCellN]
        exact hdims.1
      · rw [rowLen_setCellN, rowLen_setCellN]
        exact hdims.2 y' hy'
    by_cases hxt : x ∈ t
    · exact ih _ hxt hdims'
    · have hxa : x = a := by
        rcases List.mem_cons.mp hmem with h' | h'
        · exact h'
        · exact absurd h' hxt
      subst hxa
      rw [foldl_cellN_preserve _ t _ x y (fun gb b hb => by
        have hbx : b ≠ x := fun e => hxt (e ▸ hb)
        rw [cellN_setCellN_ne _ _ _ _ _ _ (Or.inl (Ne.symm hbx)),
          cellN_setCellN_ne _ _ _ _ _ _ (Or.inl (Ne.symm hbx))])]
      rcases hy with rfl | rfl
      · by_cases h1 : h - 1 = 0
        · rw [h1]
          refine cellN_setCellN_self _ _ _ _ ?_ ?_
          · rw [rowLen_setCellN]
            have := hdims.2 0 hh
            omega
          · rw [length_setCellN, hdims.1]
            exact hh
        · rw [cellN_setCellN_ne _ _ _ _ _ _ (Or.inr (by omega))]
          refine cellN_setCellN_self _ _ _ _ ?_ ?_
          · have := hdims.2 0 hh
            omega
          · rw [hdims.1]
            exact hh
      · refine cellN_setCellN_self _ _ _ _ ?_ ?_
        · rw [rowLen_setCellN]
          have := hdims.2 (h - 1) (by omega)
          omega
        · rw [length_setCellN, hdims.1]
          omega

/-- The wall-row loop makes rows `0` and `h - 1` `'wall'`. -/
theorem templateWallRows_edge (w h : Nat) (g : Grid) (x y : Nat)
    (hxw : x < w) (hy : y = 0 ∨ y = h - 1) (hh : 0 < h)
    (hdims : gridDims g w h) :
    cellN (templateWallRows w h g) x y = "wall" := by
  unfold templateWallRows
  exact templateWallRowsAux_cell w h _ g x y (List.mem_range.mpr hxw) hxw hy hh hdims

/-- The wall-column loop preserves the grid dimensions. -/
theorem templateWallCols_dims (w h : Nat) (g : Grid) :
    (templateWallCols w h g).length = g.length ∧
      ∀ y', ((templateWallCols w h g).getD y' []).length = (g.getD y' []).length := by
  unfold templateWallCols
  apply foldl_dims_preserve
  intro gb yy
  constructor
  · rw [length_setCellN, length_setCellN]
  · intro y'
    rw [rowLen_setCellN, rowLen_setCellN]

/-- After the wall-column loop, every cell of columns `0` and `w - 1` is
`'wall'`. -/
theorem templateWallColsAux_cell (w h : Nat) (l : List Nat) (g : Grid) (x y : Nat)
    (hmem : y ∈ l) (hyh : y < h) (hx : x = 0 ∨ x = w - 1) (hw : 0 < w)
    (hdims : gridDims g w h) :
    cellN (l.foldl (fun ga yy => setCellN (setCellN ga 0 yy "wall") (w - 1) yy "wall") g)
      x y = "wall" := by
  induction l generalizing g with
  | nil => simp at hmem
  | cons a t ih =>
    rw [List.foldl_cons]
    have hdims' : gridDims (setCellN (setCellN g 0 a "wall") (w - 1) a "wall") w h := by
      refine ⟨?_, fun y' hy' => ?_⟩
      · rw [length_setCellN, length_setCellN]
        exact hdims.1
      · rw [rowLen_setCellN, rowLen_setCellN]
        exact hdims.2 y' hy'
    by_cases hyt : y ∈ t
    · exact ih _ hyt hdims'
    · have hya : y = a := by
        rcases List.mem_cons.mp hmem with h' | h'
        · exact h'
        · exact absurd h' hyt
      subst hya
      rw [foldl_cellN_preserve _ t _ x y (fun gb b hb => by
        have hby : b ≠ y := fun e => hyt (e ▸ hb)
        rw [cellN_setCellN_ne _ _ _ _ _ _ (Or.inr (Ne.symm hby)),
          cellN_setCellN_ne _ _ _ _ _ _ (Or.inr (Ne.symm hby))])]
      rcases hx with rfl | rfl
      · by_cases h1 : w - 1 = 0
        · rw [h1]
          refine cellN_setCellN_self _ _ _ _ ?_ ?_
          · rw [rowLen_setCellN]
            have := hdims.2 y hyh
            omega
          · rw [length_setCellN, hdims.1]
            exact hyh
        · rw [cellN_setCellN_ne _ _ _ _ _ _ (Or.inl (by omega))]
          refine cellN_setCellN_self _ _ _ _ ?_ ?_
          · have := hdims.2 y hyh
            omega
          · rw [hdims.1]
            exact hyh
      · refine cellN_setCellN_self _ _ _ _ ?_ ?_
        · rw [rowLen_setCellN]
          have := hdims.2 y hyh
          omega
        · rw [length_setCellN, hdims.1]
          exact hyh

/-- The wall-column loop makes columns `0` and `w - 1` `'wall'`. -/
theorem templateWallCols_edge (w h : Nat) (g : Grid) (x y : Nat)
    (hyh : y < h) (hx : x = 0 ∨ x = w - 1) (hw : 0 < w)
    (hdims : gridDims g w h) :
    cellN (templateWallCols w h g) x y = "wall" := by
  unfold templateWallCols
  exact templateWallColsAux_cell w h _ g x y (List.mem_range.mpr hyh) hyh hx hw hdims

/-- The wall-column loop does not change cells outside columns `0` and
`w - 1`. -/
theorem templateWallCols_preserve (w h : Nat) (g : Grid) (x y : Nat)
    (hx0 : x ≠ 0) (hxw : x ≠ w - 1) :
    cellN (templateWallCols w h g) x y = cellN g x y := by
  unfold templateWallCols
  apply foldl_cellN_preserve
  intro gb b _
  rw [cellN_setCellN_ne _ _ _ _ _ _ (Or.inl hxw), cellN_setCellN_ne _ _ _ _ _ _ (Or.inl hx0)]

/-- `createBaseTemplate` produces a `w × h` grid. -/
theorem createBaseTemplate_dims (w h : Nat) :
    gridDims (createBaseTemplate w h) w h := by
  unfold createBaseTemplate
  have hm := mkGrid_dims w h (fun _ _ => "empty")
  have hc := templateChamber_dims w h (mkGrid w h (fun _ _ => "empty"))
  have hr := templateWallRows_dims w h (templateChamber w h (mkGrid w h (fun _ _ => "empty")))
  have hl := templateWallCols_dims w h (templateWallRows w h
    (templateChamber w h (mkGrid w h (fun _ _ => "empty"))))
  refine ⟨?_, fun y' hy' => ?_⟩
  · rw [hl.1, hr.1, hc.1, hm.1]
  · rw [hl.2, hr.2, hc.2]
    exact hm.2 y' hy'

/-- Every edge cell of the base template is `'wall'`. -/
theorem createBaseTemplate_edge (w h x y : Nat) (hx : x < w) (hy : y < h)
    (hedge : x = 0 ∨ x = w - 1 ∨ y = 0 ∨ y = h - 1) :
    cellN (createBaseTemplate w h) x y = "wall" := by
  have hw : 0 < w := by omega
  have hh : 0 < h := by omega
  have hm := mkGrid_dims w h (fun _ _ => "empty")
  have hcp := templateChamber_dims w h (mkGrid w h (fun _ _ => "empty"))
  have hdimsC : gridDims (templateChamber w h (mkGrid w h (fun _ _ => "empty"))) w h :=
    ⟨hcp.1.trans hm.1, fun y' hy' => (hcp.2 y').trans (hm.2 y' hy')⟩
  have hrp := templateWallRows_dims w h (templateChamber w h (mkGrid w h (fun _ _ => "empty")))
  have hdimsR : gridDims (templateWallRows w h
      (templateChamber w h (mkGrid w h (fun _ _ => "empty")))) w h :=
    ⟨hrp.1.trans hdimsC.1, fun y' hy' => (hrp.2 y').trans (hdimsC.2 y' hy')⟩
  unfold createBaseTemplate
  by_cases hxe : x = 0 ∨ x = w - 1
  · exact templateWallCols_edge w h _ x y hy hxe hw hdimsR
  · push_neg at hxe
    have hye : y = 0 ∨ y = h - 1 := by tauto
    rw [templateWallCols_preserve w h _ x y hxe.1 hxe.2]
    exact templateWallRows_edge w h _ x y hx hye hh hdimsC

/-- The variation pass writes only interior cells, so edge cells are
unchanged. -/
theorem varyTemplate_preserve_edge (theme : String) (gs : Grid × Nat) (x y : Nat)
    (hedge : x = 0 ∨ x = gridW gs.1 - 1 ∨ y = 0 ∨ y = gridH gs.1 - 1) :
    cellN (varyTemplate theme gs).1 x y = cellN gs.1 x y := by
  unfold varyTemplate
  apply foldl_cellN_preserve_pair
  intro q b hb
  have hbmem := mem_interiorCoords _ _ b hb
  have hne : x ≠ b.1 ∨ y ≠ b.2 := by omega
  by_cases hcell : cellN q.1 b.1 b.2 = "empty"
  · simp only [if_pos hcell]
    by_cases hlt : lcgVal q.2 < 2 / 10
    · simp only [if_pos hlt]
      exact cellN_setCellN_ne _ _ _ _ _ _ hne
    · simp only [if_neg hlt]
  · simp only [if_neg hcell]

/-- C5 (amended): the border invariant holds for the Template layout —
every edge cell of a generated template grid is `'wall'`, which blocks
movement.  (The Partition layout does not share the invariant: its edges
are initialized to `'difficult'`, a non-blocking open-category terrain,
and corridor carving with `corridorWidth ≥ 2` can even rewrite edge cells
to `'empty'`, as the counterexample shows.) -/
theorem C5_amended_template_borders_obstructing (cfg : GenerationConfig) (s0 : Nat)
    (x y : Nat) (hx : x < cfg.width) (hy : y < cfg.height)
    (hedge : x = 0 ∨ x = cfg.width - 1 ∨ y = 0 ∨ y = cfg.height - 1) :
    cellN (generateTemplate cfg s0).1 x y = "wall" ∧ blocksMovement "wall" = true := by
  refine ⟨?_, by decide⟩
  unfold generateTemplate
  have hdims : gridDims (createBaseTemplate cfg.width cfg.height) cfg.width cfg.height :=
    createBaseTemplate_dims ..
  have hW : gridW (createBaseTemplate cfg.width cfg.height) = cfg.width := by
    rw [gridW_getD]
    exact hdims.2 0 (by omega)
  have hH : gridH (createBaseTemplate cfg.width cfg.height) = cfg.height := hdims.1
  rw [varyTemplate_preserve_edge cfg.theme _ x y (by rw [hW, hH]; exact hedge)]
  exact createBaseTemplate_edge cfg.width cfg.height x y hx hy hedge

/-- C5 witness: on a 5×4 template configuration the edge cell `(0, 2)` is
`'wall'` and `'wall'` blocks movement. -/
theorem C5_amended_template_borders_obstructing_witness :
    ((0 : Nat) < 5 ∧ (2 : Nat) < 4 ∧
      ((0 : Nat) = 0 ∨ (0 : Nat) = 5 - 1 ∨ (2 : Nat) = 0 ∨ (2 : Nat) = 4 - 1)) ∧
    (cellN (generateTemplate ⟨5, 4, 9, "dungeon", "template", noParams⟩ (lcgInit 9)).1
        0 2 = "wall" ∧
      blocksMovement "wall" = true) :=
  ⟨⟨by decide, by decide, by decide⟩,
    C5_amended_template_borders_obstructing ⟨5, 4, 9, "dungeon", "template", noParams⟩
      (lcgInit 9) 0 2 (by decide) (by decide) (by decide)⟩

/-- C5 (counterexample): on a 6×6 Partition run (seed 1, `minRoomSize = 2`,
`corridorWidth = 5`) corridor carving rewrites the edge cell `(3, 0)` to
`'empty'`, which does not block movement — the four edges of a `'bsp'`
grid are not all obstructing for every corridorWidth. -/
theorem C5_counterexample_corridor_opens_edge :
    cellN (TerrainGenerator.generate (TerrainGenerator.create
      ⟨6, 6, 1, "dungeon", "bsp",
        ⟨some 2, none, some 5, none, none, none, none, none, none⟩⟩)) 3 0 = "empty" ∧
    blocksMovement "empty" = false := by
  constructor
  · with_unfolding_all decide
  · decide

/-! ## C6: the tactical position scorer -/

/-- A fold adding `1`, `1/2` or `0` per element (the shape of the cover
loop) equals the two filtered counts. -/
theorem foldl_cover_general {α : Type} (inb los mem : α → Prop)
    [DecidablePred inb] [DecidablePred los] [DecidablePred mem] (l : List α) (c : ℚ) :
    l.foldl (fun c d =>
        if inb d then
          if los d then c + 1 else if mem d then c + 1 / 2 else c
        else c) c =
      c + ((l.filter fun d => decide (inb d ∧ los d)).length : ℚ) +
        (1 / 2) * ((l.filter fun d => decide (inb d ∧ ¬ los d ∧ mem d)).length : ℚ) := by
  induction l generalizing c with
  | nil => simp
  | cons a t ih =>
    rw [List.foldl_cons]
    by_cases h1 : inb a
    · by_cases h2 : los a
      · rw [if_pos h1, if_pos h2, ih]
        have e1 : (decide (inb a ∧ los a)) = true := by simp [h1, h2]
        have e2 : (decide (inb a ∧ ¬ los a ∧ mem a)) = false := by simp [h2]
        rw [List.filter_cons, List.filter_cons, e1, e2]
        simp only [if_true, if_false, List.length_cons, Bool.false_eq_true]
        push_cast
        ring
      · by_cases h3 : mem a
        · rw [if_pos h1, if_neg h2, if_pos h3, ih]
          have e1 : (decide (inb a ∧ los a)) = false := by simp [h2]
          have e2 : (decide (inb a ∧ ¬ los a ∧ mem a)) = true := by simp [h1, h2, h3]
          rw [List.filter_cons, List.filter_cons, e1, e2]
          simp only [if_true, if_false, List.length_cons, Bool.false_eq_true]
          push_cast
          ring
        · rw [if_pos h1, if_neg h2, if_neg h3, ih]
          have e1 : (decide (inb a ∧ los a)) = false := by simp [h2]
          have e2 : (decide (inb a ∧ ¬ los a ∧ mem a)) = false := by simp [h3]
          rw [List.filter_cons, List.filter_cons, e1, e2]
          simp
    · rw [if_neg h1, ih]
      have e1 : (decide (inb a ∧ los a)) = false := by simp [h1]
      have e2 : (decide (inb a ∧ ¬ los a ∧ mem a)) = false := by simp [h1]
      rw [List.filter_cons, List.filter_cons, e1, e2]
      simp

/-- A fold adding `f d` for the elements satisfying `p` (the shape of the
mobility loop) equals the sum of the guarded images. -/
theorem foldl_add_if {α : Type} (p : α → Prop) [DecidablePred p] (f : α → ℚ)
    (l : List α) (c : ℚ) :
    l.foldl (fun m d => if p d then m + f d else m) c =
      c + (l.map (fun d => if p d then f d else 0)).sum := by
  induction l generalizing c with
  | nil => simp
  | cons a t ih =>
    rw [List.foldl_cons]
    by_cases h : p a
    · rw [if_pos h, ih]
      simp only [List.map_cons, List.sum_cons, if_pos h]
      ring
    · rw [if_neg h, ih]
      simp [h]

/-- `countApproachableDirections` computes the spec-side approach count. -/
theorem countApproachableDirections_eq (g : Grid) (x y : Int) :
    countApproachableDirections g x y = approachCountSpec g x y := by
  unfold countApproachableDirections approachCountSpec
  rw [foldl_count (fun d : Int × Int =>
    inBounds g (x + d.1) (y + d.2) ∧
      blocksMovement (cellI g (x + d.1) (y + d.2)) = false) cardinalDirs 0]
  exact Nat.zero_add _

/-- `hasTacticalViability` decides `2 ≤` the spec-side neighbour count. -/
theorem hasTacticalViability_eq (g : Grid) (x y : Int) :
    hasTacticalViability g x y = true ↔ 2 ≤ neighborCountSpec g x y := by
  unfold hasTacticalViability neighborCountSpec
  rw [foldl_count (fun d : Int × Int =>
    inBounds g (x + d.1) (y + d.2) ∧
      blocksMovement (cellI g (x + d.1) (y + d.2)) = false) offsets8 0]
  simp

/-- `calculateCover` computes the spec-side cover. -/
theorem calculateCover_eq (g : Grid) (x y : Int) :
    calculateCover g x y = coverSpec g x y := by
  unfold calculateCover coverSpec
  have h := foldl_cover_general (fun d : Int × Int => inBounds g (x + d.1) (y + d.2))
    (fun d : Int × Int => blocksLineOfSight (cellI g (x + d.1) (y + d.2)) = true)
    (fun d : Int × Int => cellI g (x + d.1) (y + d.2) = "ruins" ∨
      cellI g (x + d.1) (y + d.2) = "mushrooms" ∨ cellI g (x + d.1) (y + d.2) = "difficult")
    offsets8 0
  simpa using h

/-- `calculateMobility` computes the spec-side mobility. -/
theorem calculateMobility_eq (g : Grid) (x y : Int) :
    calculateMobility g x y = mobilitySpec g x y := by
  unfold calculateMobility mobilitySpec
  have h := foldl_add_if (fun d : Int × Int =>
      inBounds g (x + d.1) (y + d.2) ∧
        blocksMovement (cellI g (x + d.1) (y + d.2)) = false)
    (fun d : Int × Int => max 0 (3 - getMovementCost (cellI g (x + d.1) (y + d.2))))
    cardinalDirs 0
  simpa using h

/-- `calculateFlanking` computes the spec-side flanking count. -/
theorem calculateFlanking_eq (g : Grid) (x y : Int) :
    calculateFlanking g x y = flankSpec g x y := by
  unfold calculateFlanking flankSpec
  rw [foldl_count (fun d : Int × Int =>
    inBounds g (x + d.1) (y + d.2) ∧
      blocksMovement (cellI g (x + d.1) (y + d.2)) = false ∧
      3 ≤ countApproachableDirections g (x + d.1) (y + d.2)) flankDirs 0]
  simp only [Nat.zero_add]
  congr 1
  apply List.filter_congr
  intro d _
  simp [countApproachableDirections_eq]

/-- C6: a cell is eligible for tactical placement iff its terrain does not
block movement, is none of pit/lava/water, and at least 2 of its in-bounds
8-neighbours do not block movement; and the tactical value of any cell is
`terrainBaseValue + 10·cover + 5·flanking + 3·mobility + 2·elevation`
(elevation being the placeholder 0), with cover counting 1 per
line-of-sight-blocking neighbour and 0.5 per remaining partial-cover
neighbour. -/
theorem C6_scorer_eligibility_and_value (g : Grid) (x y : Int) :
    (isSuitableForMonster g x y = true ↔
      blocksMovement (cellI g x y) = false ∧
      ¬(cellI g x y = "pit" ∨ cellI g x y = "lava" ∨ cellI g x y = "water") ∧
      2 ≤ neighborCountSpec g x y) ∧
    calculateTacticalValue g x y =
      getTerrainTacticalValue (cellI g x y) + 10 * coverSpec g x y +
        5 * (flankSpec g x y : ℚ) + 3 * mobilitySpec g x y + 2 * 0 := by
  constructor
  · unfold isSuitableForMonster
    by_cases h1 : blocksMovement (cellI g x y)
    · simp [h1]
    · by_cases h2 : cellI g x y = "pit" ∨ cellI g x y = "lava" ∨ cellI g x y = "water"
      · simp [h1, h2]
      · simp [h1, h2, hasTacticalViability_eq]
  · unfold calculateTacticalValue
    rw [calculateCover_eq, calculateFlanking_eq, calculateMobility_eq]
    unfold getElevation jsOr
    ring

/-- C6 witness: the weighted-sum formula instantiated at the centre cell
of a concrete 3×3 grid. -/
theorem C6_scorer_eligibility_and_value_witness :
    calculateTacticalValue
        [["wall", "empty", "empty"], ["empty", "difficult", "water"],
          ["wall", "ruins", "empty"]] 1 1 =
      getTerrainTacticalValue (cellI
        [["wall", "empty", "empty"], ["empty", "difficult", "water"],
          ["wall", "ruins", "empty"]] 1 1) +
        10 * coverSpec [["wall", "empty", "empty"], ["empty", "difficult", "water"],
          ["wall", "ruins", "empty"]] 1 1 +
        5 * (flankSpec [["wall", "empty", "empty"], ["empty", "difficult", "water"],
          ["wall", "ruins", "empty"]] 1 1 : ℚ) +
        3 * mobilitySpec [["wall", "empty", "empty"], ["empty", "difficult", "water"],
          ["wall", "ruins", "empty"]] 1 1 + 2 * 0 :=
  (C6_scorer_eligibility_and_value
    [["wall", "empty", "empty"], ["empty", "difficult", "water"],
      ["wall", "ruins", "empty"]] 1 1).2

end FoureLevel
